import Mathlib

/-!
go-chat-1x1: connection registry, admission handler and per-connection worker

A shallow embedding of `chat/main.go`.

* `ConnectionStore` is the mutex-protected `map[string]*websocket.Conn`.  Each of
  `Set`, `Delete`, `Get` runs under the store's lock, so each is one atomic
  transition of the map.
* `wsHandler` is the body of the `/ws` handler up to the `go func()`.
* `workerIteration` is one pass through the body of the `for` loop of the spawned
  goroutine, with the deferred `connections.Delete(username)` applied on the
  two `return` paths; `workerLoop` iterates it.

The libraries the program calls (`encoding/json`, `gorilla/websocket`) are not
part of the repository: their results enter as parameters.
-/

namespace Chat

/-! ## Data model -/

/-- A live `*websocket.Conn`, identified by a number.  The nil pointer is the
`none` of `Option Conn`. -/
abbrev Conn := Nat

/-- A `[]byte` payload. -/
abbrev Bytes := List Nat

/-- The struct `ConnectionStore`: field `store` is the Go map.  A key without an
entry reads as nil (`none`); `Set` is only ever called with the non-nil result
of a successful upgrade, so a stored value is a `Conn`. -/
structure ConnectionStore where
  store : String → Option Conn

/-- `NewConnectionStore`: the empty map. -/
def NewConnectionStore : ConnectionStore :=
  ⟨fun _ => none⟩

/-- `ConnectionStore.Set`: `c.store[username] = conn` under the write lock. -/
def ConnectionStore.Set (c : ConnectionStore) (username : String) (conn : Conn) :
    ConnectionStore :=
  ⟨fun k => if k = username then some conn else c.store k⟩

/-- `ConnectionStore.Delete`: `delete(c.store, username)` under the write lock. -/
def ConnectionStore.Delete (c : ConnectionStore) (username : String) : ConnectionStore :=
  ⟨fun k => if k = username then none else c.store k⟩

/-- `ConnectionStore.Get`: `c.store[username]` under the read lock. -/
def ConnectionStore.Get (c : ConnectionStore) (username : String) : Option Conn :=
  c.store username

/-- The struct `ToWSMessage`, the inbound envelope. -/
structure ToWSMessage where
  To : String
  Text : String
  deriving DecidableEq, Repr

/-- The struct `FromWSMessage`, the outbound envelope. -/
structure FromWSMessage where
  From : String
  Text : String
  deriving DecidableEq, Repr

/-- The constant `ErrAlreadyConnection`. -/
def ErrAlreadyConnection : String := "user already connected"

/-- The constant `ErrUpgrade`. -/
def ErrUpgrade : String := "upgrade error"

/-- The constant `http.StatusConflict`. -/
def StatusConflict : Nat := 409

/-- The constant `websocket.CloseMessage`. -/
def CloseMessage : Int := 8

/-! ## External libraries -/

/-- The two `encoding/json` calls of the worker.  `Unmarshal` is
`json.Unmarshal(message, &fromMsg)` on a fresh `ToWSMessage` (`none`: it returned
an error); `Marshal` is `json.Marshal(toMsg)` (`none`: it returned an error). -/
structure JSON where
  Unmarshal : Bytes → Option ToWSMessage
  Marshal : FromWSMessage → Option Bytes

/-- The triple returned by `conn.ReadMessage()`; `err = none` is a nil error. -/
structure ReadResult where
  messageType : Int
  message : Bytes
  err : Option String

/-- How a call `conn.WriteMessage(t, data)` ends.  It returns an error
(`returned none`: nil), or it panics: a recipient's connection is written by the
goroutine of every sender, without a lock, and gorilla/websocket panics with
"concurrent write to websocket connection" when two writes overlap. -/
inductive WriteResult where
  | returned (err : Option String)
  | panicked (v : String)
  deriving DecidableEq, Repr

/-- What the websocket library answers during one loop iteration:
`ReadMessage conn` is the result of `conn.ReadMessage()` and
`WriteMessage conn t data` the way `conn.WriteMessage(t, data)` ends. -/
structure Net where
  ReadMessage : Conn → ReadResult
  WriteMessage : Conn → Int → Bytes → WriteResult

/-! ## The `/ws` handler -/

/-- What the handler itself writes to the `http.ResponseWriter`:
`http.Error(w, body, code)` or `w.Write(body)`. -/
inductive Reply where
  | Error (body : String) (code : Nat)
  | Write (body : String)
  deriving DecidableEq, Repr

/-- The effects of one run of the `/ws` handler: the reply it wrote (if any),
whether `upgrader.Upgrade` was called, the registry afterwards, and the
`(username, conn)` captured by the goroutine it started (if any). -/
structure Admission where
  reply : Option Reply
  upgradeCalled : Bool
  store : ConnectionStore
  worker : Option (String × Conn)

/-- The `/ws` handler, lines 139-202, up to and including `go func()`.
`username` is `r.Header.Get("username")` (the empty string when the header is
missing); `upgrade` is what `upgrader.Upgrade(w, r, nil)` returns if called. -/
def wsHandler (connections : ConnectionStore) (username : String)
    (upgrade : Except String Conn) : Admission :=
  match connections.Get username with
  | some _ =>
    ⟨some (Reply.Error ErrAlreadyConnection StatusConflict), false, connections, none⟩
  | none =>
    match upgrade with
    | Except.error e => ⟨some (Reply.Write e), true, connections, none⟩
    | Except.ok conn => ⟨none, true, connections.Set username conn, some (username, conn)⟩

/-! ### The handler as three atomic steps

Between `connections.Get`, `upgrader.Upgrade` and `connections.Set` the handler
holds no lock, so handlers of other requests may run in between. -/

/-- How an admission attempt ended. -/
inductive Outcome where
  | AlreadyConnected
  | UpgradeFailed (e : String)
  | Admitted (conn : Conn)
  deriving DecidableEq, Repr

/-- Where one run of the handler stands. -/
inductive GatePc where
  | atGet
  | atUpgrade
  | atSet (conn : Conn)
  | done (o : Outcome)
  deriving DecidableEq, Repr

/-- One atomic step of a handler run for `username`: line 142-148 (`Get` and
the conflict reply), line 150-155 (`Upgrade`), line 156-158 (`Set` and `go`). -/
def gateStep (username : String) (upgrade : Except String Conn)
    (connections : ConnectionStore) : GatePc → ConnectionStore × GatePc
  | GatePc.atGet =>
    match connections.Get username with
    | some _ => (connections, GatePc.done Outcome.AlreadyConnected)
    | none => (connections, GatePc.atUpgrade)
  | GatePc.atUpgrade =>
    match upgrade with
    | Except.error e => (connections, GatePc.done (Outcome.UpgradeFailed e))
    | Except.ok conn => (connections, GatePc.atSet conn)
  | GatePc.atSet conn => (connections.Set username conn, GatePc.done (Outcome.Admitted conn))
  | GatePc.done o => (connections, GatePc.done o)

/-- Two handler runs for the same `username` sharing the registry. -/
structure TwoGates where
  store : ConnectionStore
  first : GatePc
  second : GatePc

/-- Runs a schedule: `false` lets the first handler take its next step, `true`
the second. -/
def interleave (username : String) (up1 up2 : Except String Conn) :
    TwoGates → List Bool → TwoGates
  | g, [] => g
  | g, false :: rest =>
    let r := gateStep username up1 g.store g.first
    interleave username up1 up2 ⟨r.1, r.2, g.second⟩ rest
  | g, true :: rest =>
    let r := gateStep username up2 g.store g.second
    interleave username up1 up2 ⟨r.1, g.first, r.2⟩ rest

/-! ## The worker goroutine -/

/-- The state machine of a worker: in the loop, or returned. -/
inductive WorkerState where
  | Running
  | Terminated
  deriving DecidableEq, Repr

/-- One call `conn.WriteMessage(messageType, data)` and the way it ended. -/
structure Write where
  conn : Conn
  messageType : Int
  data : Bytes
  result : WriteResult
  deriving DecidableEq, Repr

/-- The lines the worker prints, one constructor per `fmt.Printf`. -/
inductive Log where
  | closeConnection
  | errorReadMessage (e : String)
  | errorUnmarshal (message : Bytes)
  | offline (receiver : String)
  | errorMarshal
  | errorSend (sender receiver e : String)
  | sent (sender receiver text : String)
  deriving DecidableEq, Repr

/-- The effects of a stretch of the worker's execution. -/
structure Effects where
  state : WorkerState
  writes : List Write
  log : List Log
  store : ConnectionStore

/-- One pass through the loop body, lines 161-199, of the goroutine that
captured `username` and `conn`.  On the two `return`s the deferred
`connections.Delete(username)` of line 159 runs; every `continue` and the
fall-through re-enter the loop.  The goroutine has no `recover`: when
`WriteMessage` panics the goroutine unwinds, the deferred `Delete` runs, and
the loop is left (the Go runtime then ends the process). -/
def workerIteration (json : JSON) (net : Net) (connections : ConnectionStore)
    (username : String) (conn : Conn) : Effects :=
  let rd := net.ReadMessage conn
  match rd.err with
  | some e =>
    if rd.messageType = CloseMessage then
      ⟨WorkerState.Terminated, [], [Log.closeConnection], connections.Delete username⟩
    else
      ⟨WorkerState.Terminated, [], [Log.errorReadMessage e], connections.Delete username⟩
  | none =>
    match json.Unmarshal rd.message with
    | none => ⟨WorkerState.Running, [], [Log.errorUnmarshal rd.message], connections⟩
    | some fromMsg =>
      match connections.Get fromMsg.To with
      | none => ⟨WorkerState.Running, [], [Log.offline fromMsg.To], connections⟩
      | some receiverConn =>
        match json.Marshal ⟨username, fromMsg.Text⟩ with
        | none => ⟨WorkerState.Running, [], [Log.errorMarshal], connections⟩
        | some msg =>
          match net.WriteMessage receiverConn 1 msg with
          | WriteResult.panicked v =>
            ⟨WorkerState.Terminated, [⟨receiverConn, 1, msg, WriteResult.panicked v⟩],
              [], connections.Delete username⟩
          | WriteResult.returned (some e) =>
            ⟨WorkerState.Running, [⟨receiverConn, 1, msg, WriteResult.returned (some e)⟩],
              [Log.errorSend username fromMsg.To e], connections⟩
          | WriteResult.returned none =>
            ⟨WorkerState.Running, [⟨receiverConn, 1, msg, WriteResult.returned none⟩],
              [Log.sent username fromMsg.To fromMsg.Text], connections⟩

/-- The surroundings of one loop iteration: the registry as it stands when the
iteration runs (other goroutines may have changed it since the previous one)
and the websocket library's answers. -/
structure Event where
  connections : ConnectionStore
  net : Net

/-- The `for` loop of the goroutine over a finite run of iterations.
`connections` is the registry when the goroutine starts.  When the events run
out the worker is still in the loop (blocked in `ReadMessage`). -/
def workerLoop (json : JSON) (username : String) (conn : Conn) :
    ConnectionStore → List Event → Effects
  | connections, [] => ⟨WorkerState.Running, [], [], connections⟩
  | _, e :: rest =>
    let r := workerIteration json e.net e.connections username conn
    match r.state with
    | WorkerState.Terminated => r
    | WorkerState.Running =>
      let r2 := workerLoop json username conn r.store rest
      ⟨r2.state, r.writes ++ r2.writes, r.log ++ r2.log, r2.store⟩

/-- The decodable envelopes addressed to `B` among the payloads that the worker
on `conn` reads in `evs`, in the order they are read (the reference sequence
of the order-preservation property). -/
def addressedTo (json : JSON) (conn : Conn) (B : String) (evs : List Event) :
    List ToWSMessage :=
  evs.filterMap fun e =>
    match json.Unmarshal (e.net.ReadMessage conn).message with
    | some m => if m.To = B then some m else none
    | none => none

/-! ## Fixtures for the worked examples -/

/-- A toy codec standing in for `encoding/json` in the worked examples: an
inbound payload is the recipient's characters, a zero, then the text's
characters; an outbound one is laid out the same way with the sender. -/
def demoJSON : JSON where
  Unmarshal b :=
    match b.span (fun n => n != 0) with
    | (receiver, 0 :: text) =>
      some ⟨String.mk (receiver.map Char.ofNat), String.mk (text.map Char.ofNat)⟩
    | _ => none
  Marshal m := some (m.From.toList.map Char.toNat ++ 0 :: m.Text.toList.map Char.toNat)

/-- A websocket library answer: every connection reads the text message
`message` without error and every write succeeds. -/
def demoNet (message : Bytes) : Net where
  ReadMessage _ := ⟨1, message, none⟩
  WriteMessage _ _ _ := WriteResult.returned none

/-- A websocket library answer: every read fails with a close error. -/
def closedNet : Net where
  ReadMessage _ := ⟨8, [], some "websocket: close 1000 (normal)"⟩
  WriteMessage _ _ _ := WriteResult.returned none

/-- A websocket library answer: every connection reads the text message
`message` without error, and the write on connection `busy` overlaps a write
of another sender's goroutine and panics; writes on other connections
succeed. -/
def racingNet (message : Bytes) (busy : Conn) : Net where
  ReadMessage _ := ⟨1, message, none⟩
  WriteMessage c _ _ :=
    if c = busy then WriteResult.panicked "concurrent write to websocket connection"
    else WriteResult.returned none

/-- The payload `bob\0hi`. -/
def toBobHi : Bytes := [98, 111, 98, 0, 104, 105]

/-- The payload `bob\0yo`. -/
def toBobYo : Bytes := [98, 111, 98, 0, 121, 111]

/-- The payload `alice\0hi`, the toy encoding of `{from: alice, text: hi}`. -/
def fromAliceHi : Bytes := [97, 108, 105, 99, 101, 0, 104, 105]

/-- The payload `alice\0yo`. -/
def fromAliceYo : Bytes := [97, 108, 105, 99, 101, 0, 121, 111]

/-- A registry with the single entry `alice ↦ 1`. -/
def aliceOnly : ConnectionStore := NewConnectionStore.Set "alice" 1

/-- A registry with `alice ↦ 1` and `bob ↦ 2`. -/
def aliceAndBob : ConnectionStore := (NewConnectionStore.Set "alice" 1).Set "bob" 2

/-! ## The registry -/

theorem Get_Set_same (c : ConnectionStore) (u : String) (h : Conn) :
    (c.Set u h).Get u = some h := by
  simp [ConnectionStore.Set, ConnectionStore.Get]

theorem Get_Set_other (c : ConnectionStore) (u v : String) (h : Conn) (hv : v ≠ u) :
    (c.Set u h).Get v = c.Get v := by
  simp [ConnectionStore.Set, ConnectionStore.Get, hv]

theorem Get_Delete_same (c : ConnectionStore) (u : String) :
    (c.Delete u).Get u = none := by
  simp [ConnectionStore.Delete, ConnectionStore.Get]

theorem Get_Delete_other (c : ConnectionStore) (u v : String) (hv : v ≠ u) :
    (c.Delete u).Get v = c.Get v := by
  simp [ConnectionStore.Delete, ConnectionStore.Get, hv]

theorem Delete_absent (c : ConnectionStore) (u : String) (hu : c.Get u = none) :
    c.Delete u = c := by
  cases c with
  | mk f =>
    simp only [ConnectionStore.Delete, ConnectionStore.mk.injEq]
    funext k
    by_cases hk : k = u
    · subst hk
      simpa [ConnectionStore.Get] using hu.symm
    · simp [hk]

/-- C1, as stated, fails: in the registry with the single entry `alice ↦ 1`,
`Set "alice" 2` does not keep the previous handle; afterwards `alice` maps to
`2`. -/
theorem Set_replaces_present_entry :
    aliceOnly.Get "alice" = some 1 ∧
      (aliceOnly.Set "alice" 2).Get "alice" = some 2 ∧
      (aliceOnly.Set "alice" 2).Get "alice" ≠ aliceOnly.Get "alice" := by
  decide

/-- C1, amended: `Set` stores unconditionally.  For every registry, username
`u` and handle `h`, whether or not `u` already has an entry, after
`Set u h` the username `u` maps to `h` (a previous handle is overwritten),
and every other username `v` keeps what it had. -/
theorem Set_stores_unconditionally (c : ConnectionStore) (u v : String) (h : Conn)
    (hv : v ≠ u) :
    (c.Set u h).Get u = some h ∧ (c.Set u h).Get v = c.Get v :=
  ⟨Get_Set_same c u h, Get_Set_other c u v h hv⟩

theorem Set_stores_unconditionally_witness :
    aliceAndBob.Get "alice" = some 1 ∧ "bob" ≠ "alice" ∧
      (aliceAndBob.Set "alice" 5).Get "alice" = some 5 ∧
      (aliceAndBob.Set "alice" 5).Get "bob" = aliceAndBob.Get "bob" :=
  ⟨by decide, by decide, Set_stores_unconditionally aliceAndBob "alice" "bob" 5 (by decide)⟩

/-- C2, as stated, fails: the registry maps `alice` to handle `2`; the worker
that captured `("alice", 1)` reads a close error, and its deferred `Delete`
removes the entry of handle `2`. -/
theorem Delete_removes_foreign_entry :
    (NewConnectionStore.Set "alice" 2).Get "alice" = some 2 ∧
      (workerIteration demoJSON closedNet (NewConnectionStore.Set "alice" 2) "alice" 1).store.Get
        "alice" = none ∧
      ((NewConnectionStore.Set "alice" 2).Delete "alice").Get "alice" = none := by
  decide

/-- C2, amended: `Delete u` removes the entry of `u` whatever handle it holds
(it takes the username only), every other username `v` keeps what it had, and
when `u` has no entry the registry is unchanged. -/
theorem Delete_removes_by_username (c : ConnectionStore) (u v : String) (hv : v ≠ u) :
    (c.Delete u).Get u = none ∧ (c.Delete u).Get v = c.Get v ∧
      (c.Get u = none → c.Delete u = c) :=
  ⟨Get_Delete_same c u, Get_Delete_other c u v hv, Delete_absent c u⟩

theorem Delete_removes_by_username_witness :
    "bob" ≠ "alice" ∧ (aliceAndBob.Delete "alice").Get "alice" = none ∧
      (aliceAndBob.Delete "alice").Get "bob" = aliceAndBob.Get "bob" ∧
      (aliceAndBob.Get "alice" = none → aliceAndBob.Delete "alice" = aliceAndBob) :=
  ⟨by decide, Delete_removes_by_username aliceAndBob "alice" "bob" (by decide)⟩

/-! ## The `/ws` handler -/

/-- C3: when the username of an admission request already has an entry, the
handler replies `http.Error(w, "user already connected", 409)`, does not call
`Upgrade`, starts no worker and leaves the registry unchanged. -/
theorem wsHandler_rejects_duplicate (connections : ConnectionStore) (username : String)
    (upgrade : Except String Conn) (present : Conn)
    (h : connections.Get username = some present) :
    (wsHandler connections username upgrade).reply
        = some (Reply.Error "user already connected" 409) ∧
      (wsHandler connections username upgrade).upgradeCalled = false ∧
      (wsHandler connections username upgrade).worker = none ∧
      (wsHandler connections username upgrade).store = connections := by
  simp [wsHandler, h, ErrAlreadyConnection, StatusConflict]

theorem wsHandler_rejects_duplicate_witness :
    aliceOnly.Get "alice" = some 1 ∧
      (wsHandler aliceOnly "alice" (Except.ok 9)).reply
        = some (Reply.Error "user already connected" 409) ∧
      (wsHandler aliceOnly "alice" (Except.ok 9)).upgradeCalled = false ∧
      (wsHandler aliceOnly "alice" (Except.ok 9)).worker = none ∧
      (wsHandler aliceOnly "alice" (Except.ok 9)).store = aliceOnly :=
  ⟨by decide, wsHandler_rejects_duplicate aliceOnly "alice" (Except.ok 9) 1 (by decide)⟩

/-- C4, the code at the failing input: a request with the empty username
against the empty registry is not rejected; `Upgrade` is called and, when it
succeeds with connection `7`, the entry `"" ↦ 7` is stored and a worker for
`("", 7)` is started. -/
theorem wsHandler_admits_empty_username :
    (wsHandler NewConnectionStore "" (Except.ok 7)).reply = none ∧
      (wsHandler NewConnectionStore "" (Except.ok 7)).upgradeCalled = true ∧
      (wsHandler NewConnectionStore "" (Except.ok 7)).store.Get "" = some 7 ∧
      (wsHandler NewConnectionStore "" (Except.ok 7)).worker = some ("", 7) := by
  decide

/-- The three atomic steps, run without interruption, are the handler: the
registry afterwards is the same, the attempt ends `AlreadyConnected` exactly
when the handler replied 409, and ends `Admitted c` exactly when the handler
started the worker `(username, c)`. -/
theorem interleave_alone_eq_wsHandler (connections : ConnectionStore) (username : String)
    (up1 up2 : Except String Conn) (pc2 : GatePc) (c : Conn) :
    (interleave username up1 up2 ⟨connections, GatePc.atGet, pc2⟩
        [false, false, false]).store = (wsHandler connections username up1).store ∧
      ((interleave username up1 up2 ⟨connections, GatePc.atGet, pc2⟩
          [false, false, false]).first = GatePc.done Outcome.AlreadyConnected
        ↔ (wsHandler connections username up1).reply
          = some (Reply.Error ErrAlreadyConnection StatusConflict)) ∧
      ((interleave username up1 up2 ⟨connections, GatePc.atGet, pc2⟩
          [false, false, false]).first = GatePc.done (Outcome.Admitted c)
        ↔ (wsHandler connections username up1).worker = some (username, c)) := by
  cases hg : connections.Get username with
  | some c0 => simp [interleave, gateStep, wsHandler, hg]
  | none =>
    cases up1 with
    | error e => simp [interleave, gateStep, wsHandler, hg]
    | ok c1 => simp [interleave, gateStep, wsHandler, hg]

/-- C10, the code at the failing schedule: two handlers for `alice` start on
the empty registry and alternate step by step (`Get`, `Get`, `Upgrade`,
`Upgrade`, `Set`, `Set`).  Both find no entry, both are admitted, neither is
answered `AlreadyConnected`; after the first `Set` the registry maps `alice`
to the first connection `1`, and the second `Set` replaces it by `2`. -/
theorem interleaved_admissions_both_succeed :
    (interleave "alice" (Except.ok 1) (Except.ok 2)
        ⟨NewConnectionStore, GatePc.atGet, GatePc.atGet⟩
        [false, true, false, true, false]).store.Get "alice" = some 1 ∧
      (interleave "alice" (Except.ok 1) (Except.ok 2)
        ⟨NewConnectionStore, GatePc.atGet, GatePc.atGet⟩
        [false, true, false, true, false, true]).first
        = GatePc.done (Outcome.Admitted 1) ∧
      (interleave "alice" (Except.ok 1) (Except.ok 2)
        ⟨NewConnectionStore, GatePc.atGet, GatePc.atGet⟩
        [false, true, false, true, false, true]).second
        = GatePc.done (Outcome.Admitted 2) ∧
      (interleave "alice" (Except.ok 1) (Except.ok 2)
        ⟨NewConnectionStore, GatePc.atGet, GatePc.atGet⟩
        [false, true, false, true, false, true]).store.Get "alice" = some 2 := by
  decide

/-! ## One iteration of the worker -/

/-- C5: the worker of `A` reads, without error, a payload that decodes to
`{to: B, text: t}`; `B` has handle `hB` and `{from: A, text: t}` encodes to `p`.
Then the iteration makes exactly one `WriteMessage` call: on `hB`, of type 1
(text), with data `p`. -/
theorem workerIteration_routes (json : JSON) (net : Net) (connections : ConnectionStore)
    (A B t : String) (conn hB : Conn) (p : Bytes)
    (hread : (net.ReadMessage conn).err = none)
    (hdec : json.Unmarshal (net.ReadMessage conn).message = some ⟨B, t⟩)
    (hreg : connections.Get B = some hB)
    (henc : json.Marshal ⟨A, t⟩ = some p) :
    (workerIteration json net connections A conn).writes
      = [⟨hB, 1, p, net.WriteMessage hB 1 p⟩] := by
  simp only [workerIteration, hread, hdec, hreg, henc]
  cases hw : net.WriteMessage hB 1 p with
  | panicked v => simp
  | returned err => cases err <;> simp

theorem workerIteration_routes_witness :
    ((demoNet toBobHi).ReadMessage 1).err = none ∧
      demoJSON.Unmarshal ((demoNet toBobHi).ReadMessage 1).message = some ⟨"bob", "hi"⟩ ∧
      aliceAndBob.Get "bob" = some 2 ∧
      demoJSON.Marshal ⟨"alice", "hi"⟩ = some fromAliceHi ∧
      (workerIteration demoJSON (demoNet toBobHi) aliceAndBob "alice" 1).writes
        = [⟨2, 1, fromAliceHi, (demoNet toBobHi).WriteMessage 2 1 fromAliceHi⟩] :=
  ⟨by decide, by decide, by decide, by decide,
    workerIteration_routes demoJSON (demoNet toBobHi) aliceAndBob "alice" "bob" "hi" 1 2
      fromAliceHi (by decide) (by decide) (by decide) (by decide)⟩

theorem workerIteration_read_error (json : JSON) (net : Net) (connections : ConnectionStore)
    (username : String) (conn : Conn) (h : (net.ReadMessage conn).err ≠ none) :
    (workerIteration json net connections username conn).state = WorkerState.Terminated := by
  unfold workerIteration
  cases hr : (net.ReadMessage conn).err with
  | none => exact absurd hr h
  | some e =>
    by_cases hc : (net.ReadMessage conn).messageType = CloseMessage <;> simp [hc, hr]

theorem workerIteration_terminated_store (json : JSON) (net : Net)
    (connections : ConnectionStore) (username : String) (conn : Conn)
    (h : (workerIteration json net connections username conn).state
      = WorkerState.Terminated) :
    (workerIteration json net connections username conn).store
      = connections.Delete username := by
  revert h
  unfold workerIteration
  cases hr : (net.ReadMessage conn).err with
  | some e =>
    by_cases hc : (net.ReadMessage conn).messageType = CloseMessage <;> simp [hc, hr]
  | none =>
    simp only [hr]
    cases json.Unmarshal (net.ReadMessage conn).message with
    | none => simp [hr]
    | some m =>
      simp only [hr]
      cases connections.Get m.To with
      | none => simp [hr]
      | some rc =>
        simp only [hr]
        cases json.Marshal ⟨username, m.Text⟩ with
        | none => simp [hr]
        | some b =>
          simp only [hr]
          cases net.WriteMessage rc 1 b with
          | panicked v => simp [hr]
          | returned err => cases err <;> simp [hr]

/-- When no write panics, an iteration ends in `Terminated` exactly when
`ReadMessage` returned an error and in `Running` otherwise, and an iteration
that stays `Running` leaves the registry as it was. -/
theorem workerIteration_state_of_no_panic (json : JSON) (net : Net)
    (connections : ConnectionStore) (username : String) (conn : Conn)
    (hnp : ∀ c d v, net.WriteMessage c 1 d ≠ WriteResult.panicked v) :
    (workerIteration json net connections username conn).state
      = (if (net.ReadMessage conn).err = none then WorkerState.Running
        else WorkerState.Terminated) ∧
      ((net.ReadMessage conn).err = none →
        (workerIteration json net connections username conn).store = connections) := by
  unfold workerIteration
  cases hr : (net.ReadMessage conn).err with
  | some e =>
    by_cases hc : (net.ReadMessage conn).messageType = CloseMessage <;> simp [hc, hr]
  | none =>
    simp only [hr]
    cases json.Unmarshal (net.ReadMessage conn).message with
    | none => simp [hr]
    | some m =>
      simp only [hr]
      cases connections.Get m.To with
      | none => simp [hr]
      | some rc =>
        simp only [hr]
        cases json.Marshal ⟨username, m.Text⟩ with
        | none => simp [hr]
        | some b =>
          simp only [hr]
          cases hw : net.WriteMessage rc 1 b with
          | panicked v => exact absurd hw (hnp rc b v)
          | returned err => cases err <;> simp [hr]

/-- C6, the code at the failing input: the registry holds `alice ↦ 1` and
`bob ↦ 2`; the worker of `alice` reads `{to: bob, text: hi}` without error, and
its `WriteMessage` on the connection of `bob` overlaps the write of another
sender and panics.  The read returned no error, yet the worker leaves the loop:
it ends `Terminated` and its deferred `Delete` removes the entry of `alice`. -/
theorem workerIteration_write_panic_terminates :
    ((racingNet toBobHi 2).ReadMessage 1).err = none ∧
      (workerIteration demoJSON (racingNet toBobHi 2) aliceAndBob "alice" 1).writes
        = [⟨2, 1, fromAliceHi,
            WriteResult.panicked "concurrent write to websocket connection"⟩] ∧
      (workerIteration demoJSON (racingNet toBobHi 2) aliceAndBob "alice" 1).state
        = WorkerState.Terminated ∧
      (workerIteration demoJSON (racingNet toBobHi 2) aliceAndBob "alice" 1).store.Get
        "alice" = none := by
  decide

/-- C9: the worker reads, without error, a payload that decodes to
`{to: C, text: t}` and `C` has no entry.  Then the iteration calls
`WriteMessage` on no connection, leaves the registry as it was, and the worker
stays `Running`. -/
theorem workerIteration_offline (json : JSON) (net : Net) (connections : ConnectionStore)
    (username C t : String) (conn : Conn)
    (hread : (net.ReadMessage conn).err = none)
    (hdec : json.Unmarshal (net.ReadMessage conn).message = some ⟨C, t⟩)
    (habs : connections.Get C = none) :
    (workerIteration json net connections username conn).writes = [] ∧
      (workerIteration json net connections username conn).store = connections ∧
      (workerIteration json net connections username conn).state = WorkerState.Running := by
  simp [workerIteration, hread, hdec, habs]

theorem workerIteration_offline_witness :
    ((demoNet toBobHi).ReadMessage 1).err = none ∧
      demoJSON.Unmarshal ((demoNet toBobHi).ReadMessage 1).message = some ⟨"bob", "hi"⟩ ∧
      aliceOnly.Get "bob" = none ∧
      (workerIteration demoJSON (demoNet toBobHi) aliceOnly "alice" 1).writes = [] ∧
      (workerIteration demoJSON (demoNet toBobHi) aliceOnly "alice" 1).store = aliceOnly ∧
      (workerIteration demoJSON (demoNet toBobHi) aliceOnly "alice" 1).state
        = WorkerState.Running :=
  ⟨by decide, by decide, by decide,
    workerIteration_offline demoJSON (demoNet toBobHi) aliceOnly "alice" "bob" "hi" 1
      (by decide) (by decide) (by decide)⟩

/-! ## The worker loop -/

theorem workerLoop_cons_terminated (json : JSON) (username : String) (conn : Conn)
    (s : ConnectionStore) (e : Event) (rest : List Event)
    (h : (workerIteration json e.net e.connections username conn).state
      = WorkerState.Terminated) :
    workerLoop json username conn s (e :: rest)
      = workerIteration json e.net e.connections username conn := by
  simp only [workerLoop, h]

theorem workerLoop_cons_running (json : JSON) (username : String) (conn : Conn)
    (s : ConnectionStore) (e : Event) (rest : List Event)
    (h : (workerIteration json e.net e.connections username conn).state
      = WorkerState.Running) :
    workerLoop json username conn s (e :: rest)
      = ⟨(workerLoop json username conn
            (workerIteration json e.net e.connections username conn).store rest).state,
          (workerIteration json e.net e.connections username conn).writes ++
            (workerLoop json username conn
              (workerIteration json e.net e.connections username conn).store rest).writes,
          (workerIteration json e.net e.connections username conn).log ++
            (workerLoop json username conn
              (workerIteration json e.net e.connections username conn).store rest).log,
          (workerLoop json username conn
            (workerIteration json e.net e.connections username conn).store rest).store⟩ := by
  simp only [workerLoop, h]

theorem workerLoop_terminates (json : JSON) (username : String) (conn : Conn)
    (s : ConnectionStore) (evs : List Event)
    (h : ∃ e ∈ evs, (e.net.ReadMessage conn).err ≠ none) :
    (workerLoop json username conn s evs).state = WorkerState.Terminated ∧
      (workerLoop json username conn s evs).store.Get username = none := by
  induction evs generalizing s with
  | nil => simp at h
  | cons e rest ih =>
    cases hst : (workerIteration json e.net e.connections username conn).state with
    | Terminated =>
      rw [workerLoop_cons_terminated json username conn s e rest hst]
      refine ⟨hst, ?_⟩
      rw [workerIteration_terminated_store json e.net e.connections username conn hst]
      exact Get_Delete_same e.connections username
    | Running =>
      rw [workerLoop_cons_running json username conn s e rest hst]
      apply ih
      obtain ⟨x, hx, hxe⟩ := h
      rcases List.mem_cons.mp hx with rfl | hx
      · have ht := workerIteration_read_error json x.net x.connections username conn hxe
        rw [hst] at ht
        exact WorkerState.noConfusion ht
      · exact ⟨x, hx, hxe⟩

/-- C7: a worker was started for `(u, conn)` and one of its reads returns an
error (close or any other).  Then the loop reaches `Terminated`, afterwards
`Get u` is absent, and a following admission request for `u` whose upgrade
succeeds with `conn2` gets no error reply, stores `u ↦ conn2` and starts the
worker `(u, conn2)`. -/
theorem teardown_then_readmission (json : JSON) (u : String) (conn conn2 : Conn)
    (s : ConnectionStore) (evs : List Event)
    (h : ∃ e ∈ evs, (e.net.ReadMessage conn).err ≠ none) :
    (workerLoop json u conn s evs).state = WorkerState.Terminated ∧
      (workerLoop json u conn s evs).store.Get u = none ∧
      (wsHandler (workerLoop json u conn s evs).store u (Except.ok conn2)).reply = none ∧
      (wsHandler (workerLoop json u conn s evs).store u (Except.ok conn2)).worker
        = some (u, conn2) ∧
      (wsHandler (workerLoop json u conn s evs).store u (Except.ok conn2)).store.Get u
        = some conn2 := by
  obtain ⟨h1, h2⟩ := workerLoop_terminates json u conn s evs h
  refine ⟨h1, h2, ?_, ?_, ?_⟩ <;> simp [wsHandler, h2, Get_Set_same]

theorem teardown_then_readmission_witness :
    (∃ e ∈ [(⟨aliceAndBob, demoNet toBobHi⟩ : Event), ⟨aliceAndBob, closedNet⟩],
        (e.net.ReadMessage 1).err ≠ none) ∧
      (workerLoop demoJSON "alice" 1 aliceAndBob
        [⟨aliceAndBob, demoNet toBobHi⟩, ⟨aliceAndBob, closedNet⟩]).state
        = WorkerState.Terminated ∧
      (workerLoop demoJSON "alice" 1 aliceAndBob
        [⟨aliceAndBob, demoNet toBobHi⟩, ⟨aliceAndBob, closedNet⟩]).store.Get "alice" = none ∧
      (wsHandler (workerLoop demoJSON "alice" 1 aliceAndBob
        [⟨aliceAndBob, demoNet toBobHi⟩, ⟨aliceAndBob, closedNet⟩]).store "alice"
          (Except.ok 3)).reply = none ∧
      (wsHandler (workerLoop demoJSON "alice" 1 aliceAndBob
        [⟨aliceAndBob, demoNet toBobHi⟩, ⟨aliceAndBob, closedNet⟩]).store "alice"
          (Except.ok 3)).worker = some ("alice", 3) ∧
      (wsHandler (workerLoop demoJSON "alice" 1 aliceAndBob
        [⟨aliceAndBob, demoNet toBobHi⟩, ⟨aliceAndBob, closedNet⟩]).store "alice"
          (Except.ok 3)).store.Get "alice" = some 3 :=
  ⟨⟨⟨aliceAndBob, closedNet⟩, by simp, by decide⟩,
    teardown_then_readmission demoJSON "alice" 1 3 aliceAndBob
      [⟨aliceAndBob, demoNet toBobHi⟩, ⟨aliceAndBob, closedNet⟩]
      ⟨⟨aliceAndBob, closedNet⟩, by simp, by decide⟩⟩

theorem workerIteration_writes_to (json : JSON) (net : Net) (connections : ConnectionStore)
    (A B : String) (conn hB : Conn)
    (hread : (net.ReadMessage conn).err = none)
    (hreg : connections.Get B = some hB)
    (honly : ∀ c, connections.Get c = some hB → c = B)
    (hsend : ∀ d, net.WriteMessage hB 1 d = WriteResult.returned none) :
    (workerIteration json net connections A conn).writes.filter (fun w => w.conn = hB)
      = match json.Unmarshal (net.ReadMessage conn).message with
        | some m =>
          if m.To = B then
            match json.Marshal ⟨A, m.Text⟩ with
            | some p => [⟨hB, 1, p, WriteResult.returned none⟩]
            | none => []
          else []
        | none => [] := by
  unfold workerIteration
  simp only [hread]
  cases hu : json.Unmarshal (net.ReadMessage conn).message with
  | none => simp
  | some m =>
    simp only
    cases hg : connections.Get m.To with
    | none =>
      have hne : m.To ≠ B := by
        intro hEq
        rw [hEq, hreg] at hg
        exact Option.noConfusion hg
      simp [hne]
    | some rc =>
      simp only
      by_cases hto : m.To = B
      · have hrc : rc = hB := by
          rw [hto, hreg] at hg
          exact (Option.some.inj hg).symm
        subst hrc
        cases hm : json.Marshal ⟨A, m.Text⟩ with
        | none => simp [hto]
        | some p => simp [hto, hsend p]
      · have hrc : rc ≠ hB := by
          intro hEq
          rw [hEq] at hg
          exact hto (honly m.To hg)
        cases hm : json.Marshal ⟨A, m.Text⟩ with
        | none => simp [hto]
        | some p =>
          simp only
          cases net.WriteMessage rc 1 p with
          | panicked v => simp [hto, hrc]
          | returned err => cases err <;> simp [hto, hrc]

/-- C8: the worker of `A` reads the payloads of `evs` without error; throughout,
`B` is registered with the same handle `hB`, no other username holds `hB`,
writes on `hB` succeed and no write panics.  Then the successful writes made on `hB`, in the order
they are made, are exactly the encodings of `{from: A, text}` for the decodable
envelopes addressed to `B`, in the order they were read (an envelope whose
outbound encoding fails is not written). -/
theorem workerLoop_preserves_order (json : JSON) (A B : String) (conn hB : Conn)
    (s : ConnectionStore) (evs : List Event)
    (hread : ∀ e ∈ evs, (e.net.ReadMessage conn).err = none)
    (hreg : ∀ e ∈ evs, e.connections.Get B = some hB)
    (honly : ∀ e ∈ evs, ∀ c, e.connections.Get c = some hB → c = B)
    (hsend : ∀ e ∈ evs, ∀ d, e.net.WriteMessage hB 1 d = WriteResult.returned none)
    (hnp : ∀ e ∈ evs, ∀ c d v, e.net.WriteMessage c 1 d ≠ WriteResult.panicked v) :
    (workerLoop json A conn s evs).writes.filter (fun w => w.conn = hB)
      = (addressedTo json conn B evs).filterMap
          (fun m => (json.Marshal ⟨A, m.Text⟩).map
            (fun p => ⟨hB, 1, p, WriteResult.returned none⟩)) := by
  induction evs generalizing s with
  | nil => simp [workerLoop, addressedTo]
  | cons e rest ih =>
    have hr := hread e (List.mem_cons_self _ _)
    have hst : (workerIteration json e.net e.connections A conn).state
        = WorkerState.Running := by
      rw [(workerIteration_state_of_no_panic json e.net e.connections A conn
        (hnp e (List.mem_cons_self _ _))).1]
      simp [hr]
    rw [workerLoop_cons_running json A conn s e rest hst]
    simp only [List.filter_append]
    rw [ih _ (fun x hx => hread x (List.mem_cons_of_mem _ hx))
      (fun x hx => hreg x (List.mem_cons_of_mem _ hx))
      (fun x hx => honly x (List.mem_cons_of_mem _ hx))
      (fun x hx => hsend x (List.mem_cons_of_mem _ hx))
      (fun x hx => hnp x (List.mem_cons_of_mem _ hx))]
    rw [workerIteration_writes_to json e.net e.connections A B conn hB hr
      (hreg e (List.mem_cons_self _ _)) (honly e (List.mem_cons_self _ _))
      (hsend e (List.mem_cons_self _ _))]
    simp only [addressedTo, List.filterMap_cons]
    cases hu : json.Unmarshal (e.net.ReadMessage conn).message with
    | none => simp
    | some m =>
      by_cases hto : m.To = B
      · cases hm : json.Marshal ⟨A, m.Text⟩ with
        | none => simp [hto, hm]
        | some p => simp [hto, hm]
      · simp [hto]

theorem workerLoop_preserves_order_witness :
    (∀ e ∈ [(⟨aliceAndBob, demoNet toBobHi⟩ : Event), ⟨aliceAndBob, demoNet toBobYo⟩],
        (e.net.ReadMessage 1).err = none) ∧
      (workerLoop demoJSON "alice" 1 aliceAndBob
          [⟨aliceAndBob, demoNet toBobHi⟩, ⟨aliceAndBob, demoNet toBobYo⟩]).writes.filter
          (fun w => w.conn = 2)
        = (addressedTo demoJSON 1 "bob"
            [⟨aliceAndBob, demoNet toBobHi⟩, ⟨aliceAndBob, demoNet toBobYo⟩]).filterMap
            (fun m => (demoJSON.Marshal ⟨"alice", m.Text⟩).map
              (fun p => ⟨2, 1, p, WriteResult.returned none⟩)) ∧
      (workerLoop demoJSON "alice" 1 aliceAndBob
          [⟨aliceAndBob, demoNet toBobHi⟩, ⟨aliceAndBob, demoNet toBobYo⟩]).writes
        = [⟨2, 1, fromAliceHi, WriteResult.returned none⟩,
          ⟨2, 1, fromAliceYo, WriteResult.returned none⟩] :=
  ⟨by simp [demoNet],
    workerLoop_preserves_order demoJSON "alice" "bob" 1 2 aliceAndBob
      [⟨aliceAndBob, demoNet toBobHi⟩, ⟨aliceAndBob, demoNet toBobYo⟩]
      (by simp [demoNet])
      (by simp; decide)
      (by
        intro e he c hc
        have hE : e.connections = aliceAndBob := by
          simp at he
          rcases he with rfl | rfl <;> rfl
        rw [hE] at hc
        by_cases hb : c = "bob"
        · exact hb
        · exfalso
          by_cases ha : c = "alice"
          · subst ha
            revert hc
            decide
          · simp [aliceAndBob, NewConnectionStore, ConnectionStore.Set, ConnectionStore.Get,
              ha, hb] at hc)
      (by simp [demoNet])
      (by simp [demoNet]),
    by decide⟩

end Chat
